import Mathlib

/-!
# Verification of the git-status parsing core of `hatch-build-time-vendoring`

Shallow embedding of `src/hatch_build_time_vendoring/git.py` and of the
change-set policy in `src/hatch_build_time_vendoring/plugin.py`
(`VendoringBuildHook._check_for_uncommitted_changes`), together with proofs
about the specified properties.

Python strings are modelled as Lean `String` / `List Char` (both index by
code points, as Python does).  Python exceptions are modelled by `Option`
(`none` = the call raised).
-/

/-- `FileStatus` enumeration from `git.py`. -/
inductive FileStatus where
  | MODIFIED
  | UNTRACKED
  | STAGED
  | DELETED
  | RENAMED
  | COPIED
deriving DecidableEq

/-- `GitStatusEntry` dataclass from `git.py`: `status`, `filepath`,
`original_filepath` (defaulting to `None`, used for renamed/copied files). -/
structure GitStatusEntry where
  status : FileStatus
  filepath : String
  original_filepath : Option String := none
deriving DecidableEq

/-! ## A model of `shlex.split` (POSIX mode, `whitespace_split = True`)

`_unquote_filepath` calls `shlex.split(filepath)[0]`.  `shlex.split` uses a
`shlex` lexer with `posix=True`, `whitespace_split=True`, comments disabled.
Its relevant configuration: `whitespace = " \t\r\n"`, `quotes` = the two
quote characters, `escape = "\\"`, `escapedquotes` = the double quote only.
We reproduce its `read_token` state machine exactly; the two `ValueError`s
("No closing quotation", "No escaped character") become `Except.error`. -/

/-- The double-quote character. -/
def dquoteChar : Char := Char.ofNat 34

/-- The single-quote character. -/
def squoteChar : Char := Char.ofNat 39

/-- `shlex.whitespace`. -/
def shlexWhitespace (c : Char) : Bool :=
  c = ' ' || c = '\t' || c = '\r' || c = '\n'

/-- Lexer state of `shlex.read_token`: skipping whitespace (`state == " "`),
inside a word (`state == "a"`), inside a quoted section (`state` is the quote
character), or after an escape character (`esc ret` records the state to
return to: `none` for a word, `some q` for inside quote `q`). -/
inductive ShlexState where
  | ws
  | word
  | inQuote (q : Char)
  | esc (ret : Option Char)
deriving DecidableEq

/-- One pass of the `shlex` posix state machine over the input, accumulating
the current token `cur` (with its `quoted` flag) and the finished tokens
`acc`.  Mirrors `shlex.read_token` with `whitespace_split=True`, no
commenters, no punctuation chars. -/
def shlexRun (input : List Char) (st : ShlexState) (cur : List Char)
    (quoted : Bool) (acc : List (List Char)) : Except String (List (List Char)) :=
  match input with
  | [] =>
    match st with
    | .inQuote _ => .error "No closing quotation"
    | .esc _ => .error "No escaped character"
    | .ws => .ok acc
    | .word => .ok (if cur = [] && !quoted then acc else acc ++ [cur])
  | c :: rest =>
    match st with
    | .ws =>
      if shlexWhitespace c then
        -- token is empty and unquoted in this state: keep scanning
        if cur = [] && !quoted then shlexRun rest .ws cur quoted acc
        else shlexRun rest .ws [] false (acc ++ [cur])
      else if c = '\\' then shlexRun rest (.esc none) cur quoted acc
      else if c = squoteChar || c = dquoteChar then shlexRun rest (.inQuote c) cur quoted acc
      else shlexRun rest .word (cur ++ [c]) quoted acc
    | .word =>
      if shlexWhitespace c then
        if cur = [] && !quoted then shlexRun rest .ws cur quoted acc
        else shlexRun rest .ws [] false (acc ++ [cur])
      else if c = squoteChar || c = dquoteChar then shlexRun rest (.inQuote c) cur quoted acc
      else if c = '\\' then shlexRun rest (.esc none) cur quoted acc
      else shlexRun rest .word (cur ++ [c]) quoted acc
    | .inQuote q =>
      -- any character processed inside a quoted section sets the quoted flag
      if c = q then shlexRun rest .word cur true acc
      else if c = '\\' && q = dquoteChar then shlexRun rest (.esc (some q)) cur true acc
      else shlexRun rest (.inQuote q) (cur ++ [c]) true acc
    | .esc ret =>
      match ret with
      | none => shlexRun rest .word (cur ++ [c]) quoted acc
      | some q =>
        -- inside double quotes only the quote itself or the escape character
        -- may be escaped; otherwise the backslash is kept
        if c = '\\' || c = q then shlexRun rest (.inQuote q) (cur ++ [c]) quoted acc
        else shlexRun rest (.inQuote q) (cur ++ ['\\', c]) quoted acc

/-- `shlex.split(s)` (posix, whitespace-split, comments disabled). -/
def shlexSplit (s : String) : Except String (List String) :=
  (shlexRun s.data .ws [] false []).map (List.map String.mk)

/-- `_unquote_filepath` from `git.py`: `shlex.split(filepath)[0]`.
`none` models a raised exception: either `shlex.split` raising `ValueError`
(unbalanced quoting / trailing escape) or `[0]` raising `IndexError` when
the token list is empty. -/
def unquote_filepath (filepath : String) : Option String :=
  match shlexSplit filepath with
  | .ok (tok :: _) => some tok
  | .ok [] => none
  | .error _ => none

/-! ## Helpers for Python `str` operations used by the parser -/

/-- Split a character list at the first occurrence of the pattern `pat`
(assumed nonempty), returning the parts before and after it; `none` when the
pattern does not occur.  Models Python `s.split(pat, 1)` guarded by
`pat in s`. -/
def splitOnce (pat : List Char) : List Char → Option (List Char × List Char)
  | [] => none
  | c :: cs =>
    if pat.isPrefixOf (c :: cs) then some ([], (c :: cs).drop pat.length)
    else
      match splitOnce pat cs with
      | some (pre, post) => some (c :: pre, post)
      | none => none

/-- Python `s.split(sep)` for a single-character separator: splits on every
occurrence, keeping empty pieces (so `"".split` is `[""]`). -/
def pySplit (sep : Char) : List Char → List (List Char)
  | [] => [[]]
  | c :: cs =>
    if c = sep then [] :: pySplit sep cs
    else
      match pySplit sep cs with
      | l :: ls => (c :: l) :: ls
      | [] => [[c]]

/-- Python `sep.join(l)`. -/
def pyJoin (sep : String) : List String → String
  | [] => ""
  | [x] => x
  | x :: y :: ys => x ++ sep ++ pyJoin sep (y :: ys)

/-! ## The parser `parse_git_status_porcelain` -/

/-- The rename/copy separator `" -> "`. -/
def arrowSep : List Char := [' ', '-', '>', ' ']

/-- The `match (index_status, worktree_status)` statement of
`parse_git_status_porcelain`, as an ordered conditional chain (Python
structural match: first matching case wins).  Returns `none` when no case
matches (the line is skipped). -/
def classify (index_status worktree_status : Char) (filepath_part : String)
    (original : Option String) : Option GitStatusEntry :=
  if index_status = '?' && worktree_status = '?' then
    some { status := .UNTRACKED, filepath := filepath_part }
  else if worktree_status = 'M' then
    some { status := .MODIFIED, filepath := filepath_part, original_filepath := original }
  else if worktree_status = 'D' then
    some { status := .DELETED, filepath := filepath_part }
  else if worktree_status = 'R' then
    some { status := .RENAMED, filepath := filepath_part, original_filepath := original }
  else if index_status = 'R' && worktree_status ≠ ' ' then
    some { status := .RENAMED, filepath := filepath_part, original_filepath := original }
  else if worktree_status = 'C' then
    some { status := .COPIED, filepath := filepath_part, original_filepath := original }
  else if index_status = 'C' && worktree_status ≠ ' ' then
    some { status := .COPIED, filepath := filepath_part, original_filepath := original }
  else
    none

/-- The loop body of `parse_git_status_porcelain` for one non-empty line.
`none` = the iteration raised (`line[1]` out of range, or an exception from
`_unquote_filepath`); `some none` = the line is skipped; `some (some e)` =
exactly the entry `e` is appended. -/
def processLine (cs : List Char) : Option (Option GitStatusEntry) :=
  match cs with
  | index_status :: worktree_status :: rest =>
    -- skip fully staged files (index has changes, worktree is clean)
    if index_status ≠ ' ' && worktree_status = ' ' then some none
    else
      -- line[3:]: skip the two status chars and the separating character
      let filepath_part := rest.drop 1
      match splitOnce arrowSep filepath_part with
      | some (pre, post) =>
        match unquote_filepath (String.mk pre), unquote_filepath (String.mk post) with
        | some original, some fp => some (classify index_status worktree_status fp (some original))
        | _, _ => none
      | none =>
        match unquote_filepath (String.mk filepath_part) with
        | some fp => some (classify index_status worktree_status fp none)
        | none => none
  | _ => none

/-- Records contributed by one line of the report: an empty line is passed
over (`continue`), otherwise `processLine` yields zero or one record
(`none` = that iteration raised). -/
def lineRecords (cs : List Char) : Option (List GitStatusEntry) :=
  if cs = [] then some []
  else (processLine cs).map Option.toList

/-- The `for line in output.split("\n")` loop, appending each line's records
in order; the whole parse raises (`none`) as soon as one line raises. -/
def parseLinesAux : List (List Char) → Option (List GitStatusEntry)
  | [] => some []
  | l :: ls =>
    match lineRecords l with
    | none => none
    | some r =>
      match parseLinesAux ls with
      | none => none
      | some rest => some (r ++ rest)

/-- `parse_git_status_porcelain` from `git.py`.  `none` models an uncaught
exception escaping the function. -/
def parse_git_status_porcelain (output : String) : Option (List GitStatusEntry) :=
  parseLinesAux (pySplit '\n' output.data)

/-! ## The Status Querier `get_modified_and_untracked_files`

`subprocess.run(..., check=True)` raises `CalledProcessError` exactly when
the spawned command exits non-zero; the function converts that into
`RuntimeError(f"Git command failed: {e.stderr}")`.  We model the outcome of
the spawned `git status` process by its exit code, stdout and stderr. -/

/-- Outcome of `get_modified_and_untracked_files`: a list of entries, the
`RuntimeError` raised when the git command fails, or an uncaught exception
escaping from the parser. -/
inductive QueryResult where
  | ok (entries : List GitStatusEntry)
  | gitError (message : String)
  | parseException
deriving DecidableEq

/-- `get_modified_and_untracked_files` from `git.py`, as a function of the
spawned process's exit code, stdout and stderr. -/
def get_modified_and_untracked_files (returncode : Int) (stdout stderr : String) :
    QueryResult :=
  if returncode ≠ 0 then .gitError ("Git command failed: " ++ stderr)
  else
    match parse_git_status_porcelain stdout with
    | some entries => .ok entries
    | none => .parseException

/-! ## The Change-Set Policy
(`VendoringBuildHook._check_for_uncommitted_changes` in `plugin.py`)

The method receives the untracked and modified file lists for the vendor
directory from `_get_uncommitted_changes`, displays warnings enumerating
them, and raises `RuntimeError` when `abort_on_changed_files` is set.  We
model it as a pure function of those lists and the flag, returning the
warnings displayed (in order) and the decision: `proceed` (normal return) or
`abort reason` (the `RuntimeError` message). -/

/-- A decision of the change-set policy. -/
inductive Decision where
  | proceed
  | abort (reason : String)
deriving DecidableEq

/-- Result of one policy evaluation: the warning messages displayed, and the
decision. -/
structure CheckResult where
  warnings : List String
  decision : Decision
deriving DecidableEq

/-- The `RuntimeError` message raised when the policy aborts. -/
def abort_reason (vendor_dir : String) : String :=
  "Uncommitted changes in vendor directory: " ++ vendor_dir ++
    ". Commit or stash these changes before building, or set " ++
    "abort-on-changed-files = false in plugin config to ignore."

/-- `VendoringBuildHook._check_for_uncommitted_changes`, given the detected
`untracked_files` and `modified_files` lists and the
`abort_on_changed_files` configuration flag. -/
def check_for_uncommitted_changes (vendor_dir : String)
    (untracked_files modified_files : List String)
    (abort_on_changed_files : Bool) : CheckResult :=
  if untracked_files ≠ [] ∨ modified_files ≠ [] then
    let message := "Uncommitted changes detected in vendor directory: " ++ vendor_dir
    let untracked_warnings :=
      if untracked_files ≠ [] then
        ["Untracked files:\n  - " ++ pyJoin "\n  - " untracked_files]
      else []
    let modified_warnings :=
      if modified_files ≠ [] then
        ["Modified files:\n  - " ++ pyJoin "\n  - " modified_files]
      else []
    let warnings := untracked_warnings ++ modified_warnings ++ [message]
    if abort_on_changed_files then
      { warnings := warnings, decision := .abort (abort_reason vendor_dir) }
    else
      { warnings := warnings, decision := .proceed }
  else
    { warnings := [], decision := .proceed }

/-- The user-visible diagnostic accompanying one policy evaluation: the
warning lines displayed, followed by the abort reason when the evaluation
aborts. -/
def CheckResult.diagnostic (r : CheckResult) : List String :=
  r.warnings ++ (match r.decision with | .abort reason => [reason] | .proceed => [])

/-! ## Derived predicates about the parser's input domain -/

/-- A character through which the shlex machine simply extends the current
word: not whitespace, not a quote, not the escape character. -/
def plainChar (c : Char) : Bool :=
  !shlexWhitespace c && c ≠ squoteChar && c ≠ dquoteChar && c ≠ '\\'

/-- The path-tokenization on one (non-empty, length `≥ 2`) line succeeds:
either the line is skipped before unquoting (fully staged), or every path
segment of the line yields at least one shell token. -/
def lineTokenizesOK (cs : List Char) : Bool :=
  match cs with
  | index_status :: worktree_status :: rest =>
    (index_status ≠ ' ' && worktree_status = ' ') ||
      (let filepath_part := rest.drop 1
       match splitOnce arrowSep filepath_part with
       | some (pre, post) =>
         (unquote_filepath (String.mk pre)).isSome &&
           (unquote_filepath (String.mk post)).isSome
       | none => (unquote_filepath (String.mk filepath_part)).isSome)
  | _ => false

/-! ## Helper lemmas -/

theorem String.data_append_eq (s t : String) : (s ++ t).data = s.data ++ t.data := by
  cases s; cases t; rfl

theorem pySplit_of_not_mem (sep : Char) (cs : List Char) (h : sep ∉ cs) :
    pySplit sep cs = [cs] := by
  induction cs with
  | nil => rfl
  | cons c cs ih =>
    have hcs : sep ∉ cs := fun hm => h (List.mem_cons_of_mem _ hm)
    have hc : ¬(c = sep) := fun hc => h (hc ▸ List.mem_cons_self _ _)
    simp only [pySplit, if_neg hc, ih hcs]

theorem lineRecords_length (cs : List Char) (r : List GitStatusEntry)
    (h : lineRecords cs = some r) : r.length ≤ 1 := by
  unfold lineRecords at h
  split at h
  · cases h; simp
  · cases hp : processLine cs with
    | none => rw [hp] at h; cases h
    | some o =>
      rw [hp] at h
      cases h
      cases o <;> simp

theorem splitOnce_arrow_eq_none (seg : List Char) (h : ' ' ∉ seg) :
    splitOnce arrowSep seg = none := by
  induction seg with
  | nil => rfl
  | cons a as ih =>
    have ha : ¬(' ' = a) := fun hh => h (hh ▸ List.mem_cons_self _ _)
    have has : ' ' ∉ as := fun hm => h (List.mem_cons_of_mem _ hm)
    have hpre : arrowSep.isPrefixOf (a :: as) = false := by
      simp [arrowSep, List.isPrefixOf]
      intro hh
      exact absurd hh.symm (fun hh2 => ha hh2.symm)
    unfold splitOnce
    simp only [hpre, Bool.false_eq_true, if_false, ih has]

theorem classify_spec (i w : Char) (fp : String) (o : Option String) (e : GitStatusEntry)
    (h : classify i w fp o = some e) :
    e.filepath = fp ∧ e.status ≠ .STAGED ∧
      ((e.status = .UNTRACKED ∨ e.status = .DELETED) → e.original_filepath = none) ∧
      ((e.status = .MODIFIED ∨ e.status = .RENAMED ∨ e.status = .COPIED) →
        e.original_filepath = o) := by
  unfold classify at h
  split_ifs at h <;> (cases h; simp)

theorem processLine_spec (c0 c1 : Char) (rest : List Char) (e : GitStatusEntry)
    (h : processLine (c0 :: c1 :: rest) = some (some e)) :
    e.status ≠ .STAGED ∧
      ((e.status = .UNTRACKED ∨ e.status = .DELETED) → e.original_filepath = none) ∧
      (e.original_filepath.isSome ↔
        ((splitOnce arrowSep (rest.drop 1)).isSome ∧
          (e.status = .MODIFIED ∨ e.status = .RENAMED ∨ e.status = .COPIED))) ∧
      (∀ pre post, splitOnce arrowSep (rest.drop 1) = some (pre, post) →
        unquote_filepath (String.mk post) = some e.filepath) ∧
      (splitOnce arrowSep (rest.drop 1) = none →
        unquote_filepath (String.mk (rest.drop 1)) = some e.filepath) := by
  simp only [processLine] at h
  split at h
  · simp at h
  · split at h
    next pre post heq =>
      split at h
      next original fp ho hf =>
        have hc : classify c0 c1 fp (some original) = some e := Option.some.inj h
        obtain ⟨hfp, hst, hud, hmrc⟩ := classify_spec _ _ _ _ _ hc
        refine ⟨hst, hud, ?_, ?_, ?_⟩
        · rw [heq]
          cases hs : e.status <;> simp_all
        · intro pre1 post1 hsp
          rw [heq] at hsp
          obtain ⟨hp1, hp2⟩ := Prod.mk.injEq .. ▸ Option.some.inj hsp
          subst hp2
          rw [hf, hfp]
        · intro hsp; rw [heq] at hsp; cases hsp
      next ho hf => simp at h
    next heq =>
      split at h
      next fp hf =>
        have hc : classify c0 c1 fp none = some e := Option.some.inj h
        obtain ⟨hfp, hst, hud, hmrc⟩ := classify_spec _ _ _ _ _ hc
        refine ⟨hst, hud, ?_, ?_, ?_⟩
        · rw [heq]
          cases hs : e.status <;> simp_all
        · intro pre1 post1 hsp; rw [heq] at hsp; cases hsp
        · intro _; rw [hf, hfp]
      next hf => simp at h

theorem parseLinesAux_mem (lines : List (List Char)) (es : List GitStatusEntry)
    (e : GitStatusEntry) (h : parseLinesAux lines = some es) (he : e ∈ es) :
    ∃ l ∈ lines, ∃ r, lineRecords l = some r ∧ e ∈ r := by
  induction lines generalizing es with
  | nil =>
    simp only [parseLinesAux] at h
    cases h
    cases he
  | cons l ls ih =>
    simp only [parseLinesAux] at h
    cases hr : lineRecords l with
    | none => rw [hr] at h; cases h
    | some r =>
      rw [hr] at h
      cases hrest : parseLinesAux ls with
      | none => rw [hrest] at h; cases h
      | some rest =>
        rw [hrest] at h
        cases h
        rcases List.mem_append.mp he with hmem | hmem
        · exact ⟨l, List.mem_cons_self _ _, r, hr, hmem⟩
        · obtain ⟨l1, hl1, r1, hr1, he1⟩ := ih rest hrest hmem
          exact ⟨l1, List.mem_cons_of_mem _ hl1, r1, hr1, he1⟩

theorem lineRecords_emits (cs : List Char) (r : List GitStatusEntry)
    (e : GitStatusEntry) (h : lineRecords cs = some r) (he : e ∈ r) :
    ∃ c0 c1 rest, cs = c0 :: c1 :: rest ∧ processLine cs = some (some e) := by
  unfold lineRecords at h
  split at h
  · cases h; cases he
  · cases hp : processLine cs with
    | none => rw [hp] at h; cases h
    | some o =>
      rw [hp] at h
      cases h
      cases o with
      | none => cases he
      | some e1 =>
        have he1 : e = e1 := by simpa using he
        subst he1
        match cs, hp with
        | [], hp => simp [processLine] at hp
        | [c], hp => simp [processLine] at hp
        | c0 :: c1 :: rest, hp => exact ⟨c0, c1, rest, rfl, rfl⟩

theorem parseLinesAux_spec (lines : List (List Char)) (es : List GitStatusEntry)
    (h : parseLinesAux lines = some es) :
    ∃ rss, lines.mapM lineRecords = some rss ∧ es = rss.flatten ∧
      es.length = lines.countP (fun l => ((lineRecords l).getD []).length == 1) := by
  induction lines generalizing es with
  | nil =>
    simp only [parseLinesAux] at h
    cases h
    exact ⟨[], rfl, by simp, by simp⟩
  | cons l ls ih =>
    simp only [parseLinesAux] at h
    cases hr : lineRecords l with
    | none => rw [hr] at h; cases h
    | some r =>
      rw [hr] at h
      cases hrest : parseLinesAux ls with
      | none => rw [hrest] at h; cases h
      | some rest =>
        rw [hrest] at h
        cases h
        obtain ⟨rss, hm, hjoin, hlen⟩ := ih rest hrest
        refine ⟨r :: rss, ?_, ?_, ?_⟩
        · rw [List.mapM_cons, hr, hm]; rfl
        · simp [hjoin]
        · have hle := lineRecords_length l r hr
          rw [List.countP_cons, List.length_append, hlen, hr]
          match r, hle with
          | [], _ => simp
          | [a], _ => simp [Option.getD, Nat.add_comm]

theorem parseLinesAux_isSome (lines : List (List Char))
    (h : ∀ l ∈ lines, (lineRecords l).isSome) : (parseLinesAux lines).isSome := by
  induction lines with
  | nil => simp [parseLinesAux]
  | cons l ls ih =>
    simp only [parseLinesAux]
    cases hr : lineRecords l with
    | none => exact absurd (hr ▸ h l (List.mem_cons_self _ _)) (by simp)
    | some r =>
      cases hrest : parseLinesAux ls with
      | none =>
        have := ih (fun l1 hl1 => h l1 (List.mem_cons_of_mem _ hl1))
        rw [hrest] at this
        cases this
      | some rest => simp

theorem shlexRun_plain (cs : List Char) (h : ∀ c ∈ cs, plainChar c = true)
    (cur : List Char) (quoted : Bool) (acc : List (List Char))
    (hcur : cur ≠ [] ∨ quoted = true) :
    shlexRun cs .word cur quoted acc = .ok (acc ++ [cur ++ cs]) := by
  induction cs generalizing cur with
  | nil =>
    simp only [shlexRun]
    rcases hcur with hcur | hcur
    · simp [hcur]
    · simp [hcur]
  | cons c cs ih =>
    have hc := h c (List.mem_cons_self _ _)
    have hcs : ∀ c1 ∈ cs, plainChar c1 = true := fun c1 hm => h c1 (List.mem_cons_of_mem _ hm)
    simp only [plainChar, Bool.and_eq_true, Bool.not_eq_true', decide_eq_true_eq] at hc
    obtain ⟨⟨⟨hw, hq1⟩, hq2⟩, hesc⟩ := hc
    simp only [shlexRun, hw, Bool.false_eq_true, if_false]
    rw [if_neg (by simp [hq1, hq2]), if_neg (by simpa using hesc)]
    rw [ih hcs (cur ++ [c]) (by simp)]
    simp

theorem unquote_plain (seg : List Char) (hne : seg ≠ [])
    (h : ∀ c ∈ seg, plainChar c = true) :
    unquote_filepath (String.mk seg) = some (String.mk seg) := by
  match seg, hne with
  | c :: cs, _ =>
    have hc := h c (List.mem_cons_self _ _)
    have hcs : ∀ c1 ∈ cs, plainChar c1 = true := fun c1 hm => h c1 (List.mem_cons_of_mem _ hm)
    simp only [plainChar, Bool.and_eq_true, Bool.not_eq_true', decide_eq_true_eq] at hc
    obtain ⟨⟨⟨hw, hq1⟩, hq2⟩, hesc⟩ := hc
    unfold unquote_filepath shlexSplit
    have hdata : (String.mk (c :: cs)).data = c :: cs := rfl
    rw [hdata]
    simp only [shlexRun, hw, Bool.false_eq_true, if_false]
    rw [if_neg (by simpa using hesc), if_neg (by simp [hq1, hq2])]
    rw [show ([] : List Char) ++ [c] = [c] from rfl]
    rw [shlexRun_plain cs hcs [c] false [] (by simp)]
    rfl

theorem mem_pyJoin_substring (sep : String) (p : String) (l : List String) (hp : p ∈ l) :
    p.data <:+: (pyJoin sep l).data := by
  induction l with
  | nil => cases hp
  | cons x xs ih =>
    cases xs with
    | nil =>
      have hx : p = x := by simpa using hp
      subst hx
      exact ⟨[], [], by simp [pyJoin]⟩
    | cons y ys =>
      rcases List.mem_cons.mp hp with rfl | hmem
      · refine ⟨[], (sep ++ pyJoin sep (y :: ys)).data, ?_⟩
        simp [pyJoin, String.data_append_eq, List.append_assoc]
      · obtain ⟨s, t, hst⟩ := ih hmem
        refine ⟨(x ++ sep).data ++ s, t, ?_⟩
        simp only [pyJoin, String.data_append_eq]
        rw [← hst]
        simp [List.append_assoc]

theorem substring_extend_left {α : Type} (l0 : List α) {l1 l2 : List α}
    (h : l1 <:+: l2) : l1 <:+: l0 ++ l2 := by
  obtain ⟨s, t, rfl⟩ := h
  exact ⟨l0 ++ s, t, by simp⟩

theorem processLine_isSome_of_tokenizesOK (cs : List Char)
    (h : lineTokenizesOK cs = true) : (processLine cs).isSome := by
  match cs with
  | [] => simp [lineTokenizesOK] at h
  | [c] => simp [lineTokenizesOK] at h
  | c0 :: c1 :: rest =>
    simp only [lineTokenizesOK, Bool.or_eq_true] at h
    simp only [processLine]
    by_cases hskip : (decide (c0 ≠ ' ') && decide (c1 = ' ')) = true
    · rw [if_pos hskip]; rfl
    · rw [if_neg hskip]
      rcases h with h | h
      · exact absurd h hskip
      · cases hsp : splitOnce arrowSep (rest.drop 1) with
        | some pp =>
          obtain ⟨pre, post⟩ := pp
          rw [hsp] at h
          simp only [Bool.and_eq_true, Option.isSome_iff_exists] at h
          obtain ⟨⟨o1, ho1⟩, ⟨o2, ho2⟩⟩ := h
          show (match unquote_filepath (String.mk pre), unquote_filepath (String.mk post) with
            | some original, some fp => some (classify c0 c1 fp (some original))
            | _, _ => none).isSome = true
          rw [ho1, ho2]
          rfl
        | none =>
          rw [hsp] at h
          simp only [Option.isSome_iff_exists] at h
          obtain ⟨o1, ho1⟩ := h
          show (match unquote_filepath (String.mk (rest.drop 1)) with
            | some fp => some (classify c0 c1 fp none)
            | none => none).isSome = true
          rw [ho1]
          rfl

/-! ## Claim theorems -/

/-- C1, counterexample.  The claimed invariant "`previous_path` is present
iff `status ∈ {Renamed, Copied}`" fails in both directions on the code:
the line `"RM old.py -> file.py"` yields a `MODIFIED` record carrying
`original_filepath = some "old.py"`, and the line `" R file.py"` (worktree
rename without an arrow) yields a `RENAMED` record with `original_filepath
= none`. -/
theorem modified_record_carries_previous_path :
    parse_git_status_porcelain "RM old.py -> file.py" =
      some [{ status := .MODIFIED, filepath := "file.py",
              original_filepath := some "old.py" }] ∧
    parse_git_status_porcelain " R file.py" =
      some [{ status := .RENAMED, filepath := "file.py",
              original_filepath := none }] ∧
    FileStatus.MODIFIED ≠ FileStatus.RENAMED ∧
    FileStatus.MODIFIED ≠ FileStatus.COPIED := by
  refine ⟨by decide, by decide, by decide, by decide⟩

/-- C1, amended.  For every parsed report: no `STAGED` record is ever
emitted, `UNTRACKED` and `DELETED` records never carry `original_filepath`,
and for every emitted record of a line, `original_filepath` is present iff
the line's path segment contained the rename arrow `" -> "` and the record's
status is `MODIFIED`, `RENAMED` or `COPIED`. -/
theorem previous_path_iff_arrow :
    (∀ (output : String) (entries : List GitStatusEntry),
      parse_git_status_porcelain output = some entries →
      ∀ e ∈ entries, e.status ≠ .STAGED ∧
        ((e.status = .UNTRACKED ∨ e.status = .DELETED) →
          e.original_filepath = none)) ∧
    (∀ (c0 c1 : Char) (rest : List Char) (e : GitStatusEntry),
      processLine (c0 :: c1 :: rest) = some (some e) →
      (e.original_filepath.isSome ↔
        ((splitOnce arrowSep (rest.drop 1)).isSome ∧
          (e.status = .MODIFIED ∨ e.status = .RENAMED ∨ e.status = .COPIED)))) := by
  constructor
  · intro output entries h e he
    unfold parse_git_status_porcelain at h
    obtain ⟨l, hl, r, hr, her⟩ := parseLinesAux_mem _ _ _ h he
    obtain ⟨c0, c1, rest, hcs, hp⟩ := lineRecords_emits l r e hr her
    rw [hcs] at hp
    have spec := processLine_spec c0 c1 rest e hp
    exact ⟨spec.1, spec.2.1⟩
  · intro c0 c1 rest e hp
    exact (processLine_spec c0 c1 rest e hp).2.2.1

/-- Sample record used to instantiate the amended C1 theorem. -/
def sampleRM : GitStatusEntry :=
  { status := .MODIFIED, filepath := "file.py", original_filepath := some "old.py" }

/-- C1, witness for the amended theorem, at the line
`"RM old.py -> file.py"`. -/
theorem previous_path_iff_arrow_witness :
    (sampleRM.status ≠ FileStatus.STAGED ∧
      ((sampleRM.status = .UNTRACKED ∨ sampleRM.status = .DELETED) →
        sampleRM.original_filepath = none)) ∧
    (sampleRM.original_filepath.isSome ↔
      ((splitOnce arrowSep ((' ' :: "old.py -> file.py".data).drop 1)).isSome ∧
        (sampleRM.status = .MODIFIED ∨ sampleRM.status = .RENAMED ∨
          sampleRM.status = .COPIED))) :=
  ⟨previous_path_iff_arrow.1 "RM old.py -> file.py" [sampleRM] (by decide)
      sampleRM (by simp),
    previous_path_iff_arrow.2 'R' 'M' (' ' :: "old.py -> file.py".data) sampleRM
      (by decide)⟩

/-- C2, counterexample.  `parse` is not total: the two-character-prefixed
line `"?? a\"b"` (path segment with an unbalanced quote) makes
`_unquote_filepath` raise `ValueError`, and the line `"?? "` (empty path
segment) makes it raise `IndexError`; neither line is skipped or emitted. -/
theorem parse_raises_on_malformed_line :
    parse_git_status_porcelain "?? a\"b" = none ∧
    parse_git_status_porcelain "?? " = none := by
  refine ⟨by decide, by decide⟩

/-- C2, amended.  On reports all of whose lines either are empty or
tokenize successfully (two-character prefix present and every path segment
yielding at least one shell token), `parse` never fails: each line is
skipped or emits at most one record, and unrecognized status-code pairs are
skipped silently. -/
theorem parse_total_on_tokenizable_report (output : String)
    (h : ∀ l ∈ pySplit '\n' output.data, l = [] ∨ lineTokenizesOK l = true) :
    ∃ entries, parse_git_status_porcelain output = some entries ∧
      ∀ l ∈ pySplit '\n' output.data,
        ∃ r, lineRecords l = some r ∧ r.length ≤ 1 := by
  have hsome : ∀ l ∈ pySplit '\n' output.data, (lineRecords l).isSome := by
    intro l hl
    rcases h l hl with rfl | hok
    · rfl
    · unfold lineRecords
      have hne : ¬(l = []) := by
        intro hemp
        rw [hemp] at hok
        simp [lineTokenizesOK] at hok
      rw [if_neg hne]
      have := processLine_isSome_of_tokenizesOK l hok
      simp only [Option.isSome_iff_exists] at this
      obtain ⟨o, ho⟩ := this
      rw [ho]
      rfl
  have htot := parseLinesAux_isSome (pySplit '\n' output.data) hsome
  simp only [Option.isSome_iff_exists] at htot
  obtain ⟨entries, hent⟩ := htot
  refine ⟨entries, hent, ?_⟩
  intro l hl
  have := hsome l hl
  simp only [Option.isSome_iff_exists] at this
  obtain ⟨r, hr⟩ := this
  exact ⟨r, hr, lineRecords_length l r hr⟩

/-- C2, witness for the amended theorem, on a two-line report. -/
theorem parse_total_on_tokenizable_report_witness :
    ∃ entries,
      parse_git_status_porcelain "?? file.py\n M other.py" = some entries ∧
      ∀ l ∈ pySplit '\n' ("?? file.py\n M other.py").data,
        ∃ r, lineRecords l = some r ∧ r.length ≤ 1 :=
  parse_total_on_tokenizable_report "?? file.py\n M other.py" (by decide)

/-- C3.  When the worktree code is `M`, the worktree code takes precedence
for any index code (the untracked case cannot fire since the worktree code
is not `?`), producing a single `MODIFIED` record; in particular
`"MM file.py"` yields exactly one `MODIFIED` record for `file.py`, and
`"RM old.py -> file.py"` yields exactly one `MODIFIED` record with path
`file.py` and previous path `old.py`. -/
theorem worktree_code_precedence :
    (∀ (c0 : Char) (fp : String) (o : Option String),
      classify c0 'M' fp o =
        some { status := .MODIFIED, filepath := fp, original_filepath := o }) ∧
    parse_git_status_porcelain "MM file.py" =
      some [{ status := .MODIFIED, filepath := "file.py",
              original_filepath := none }] ∧
    parse_git_status_porcelain "RM old.py -> file.py" =
      some [{ status := .MODIFIED, filepath := "file.py",
              original_filepath := some "old.py" }] := by
  refine ⟨?_, by decide, by decide⟩
  intro c0 fp o
  simp [classify]

/-- C4.  Every line whose index code is non-blank and whose worktree code is
blank is skipped: a single-line report consisting of such a line (for any
index code, including `R` and `C`) parses to zero records. -/
theorem fully_staged_line_skipped (line : String) (c0 c1 : Char)
    (rest : List Char) (hdata : line.data = c0 :: c1 :: rest)
    (h0 : c0 ≠ ' ') (h1 : c1 = ' ') (hnl : '\n' ∉ line.data) :
    parse_git_status_porcelain line = some [] := by
  subst h1
  unfold parse_git_status_porcelain
  rw [pySplit_of_not_mem _ _ hnl, hdata]
  simp [parseLinesAux, lineRecords, processLine, h0]

/-- C4, witness: the fully-staged line `"A  file.py"` parses to zero
records. -/
theorem fully_staged_line_skipped_witness :
    parse_git_status_porcelain "A  file.py" = some [] :=
  fully_staged_line_skipped "A  file.py" 'A' ' ' (" file.py".data)
    (by decide) (by decide) rfl (by decide)

/-- C5, counterexample.  Shell-style tokenization is applied to every path
segment, not only quoted ones: the unquoted segment
`file with spaces.txt` of the line `" M file with spaces.txt"` is NOT
carried into the record verbatim; the record's path is the first shell
token `file`. -/
theorem unquoted_space_segment_truncated :
    parse_git_status_porcelain " M file with spaces.txt" =
      some [{ status := .MODIFIED, filepath := "file",
              original_filepath := none }] ∧
    ("file" : String) ≠ "file with spaces.txt" := by
  refine ⟨by decide, by decide⟩

/-- C5, amended.  A path segment made only of plain characters (no
whitespace, quotes, or backslash) is carried into the emitted record
verbatim; segments with spaces are truncated to their first shell token and
backslashes are consumed as escapes (see the counterexample). -/
theorem plain_segment_path_verbatim (c0 c1 gap : Char) (seg : List Char)
    (hplain : ∀ c ∈ seg, plainChar c = true) (e : GitStatusEntry)
    (h : processLine (c0 :: c1 :: gap :: seg) = some (some e)) :
    e.filepath = String.mk seg := by
  have hnospace : ' ' ∉ seg := by
    intro hmem
    have := hplain ' ' hmem
    simp [plainChar, shlexWhitespace] at this
  have hsp : splitOnce arrowSep seg = none := splitOnce_arrow_eq_none seg hnospace
  have spec := processLine_spec c0 c1 (gap :: seg) e h
  have hdrop : (gap :: seg).drop 1 = seg := rfl
  rw [hdrop] at spec
  have huq := spec.2.2.2.2 hsp
  by_cases hseg : seg = []
  · subst hseg
    rw [show unquote_filepath (String.mk []) = none from rfl] at huq
    cases huq
  · rw [unquote_plain seg hseg hplain] at huq
    exact (Option.some.inj huq).symm

/-- C5, witness for the amended theorem, at the line `"?? file.py"`. -/
theorem plain_segment_path_verbatim_witness :
    ({ status := .UNTRACKED, filepath := "file.py",
       original_filepath := none } : GitStatusEntry).filepath =
      String.mk ("file.py".data) :=
  plain_segment_path_verbatim '?' '?' ' ' ("file.py".data) (by decide)
    { status := .UNTRACKED, filepath := "file.py", original_filepath := none }
    (by decide)

/-- C6.  A quoted path containing spaces round-trips to its unquoted
literal value: the line `" M "` followed by the double-quoted string
`file with spaces.txt` yields exactly one `MODIFIED` record whose path is
the unquoted `file with spaces.txt`. -/
theorem quoted_path_round_trip :
    parse_git_status_porcelain " M \"file with spaces.txt\"" =
      some [{ status := .MODIFIED, filepath := "file with spaces.txt",
              original_filepath := none }] := by
  decide

/-- C7.  Records appear in the order of their source lines (the parse is
the flattening of the per-line record lists taken in input order), blank
lines produce no record, and the output length equals the number of
emitting (non-skipped) lines. -/
theorem parse_order_and_count (output : String) (entries : List GitStatusEntry)
    (h : parse_git_status_porcelain output = some entries) :
    (∃ rss, (pySplit '\n' output.data).mapM lineRecords = some rss ∧
      entries = rss.flatten) ∧
    lineRecords [] = some [] ∧
    entries.length =
      (pySplit '\n' output.data).countP
        (fun l => ((lineRecords l).getD []).length == 1) := by
  unfold parse_git_status_porcelain at h
  obtain ⟨rss, hm, hj, hlen⟩ := parseLinesAux_spec _ _ h
  exact ⟨⟨rss, hm, hj⟩, rfl, hlen⟩

/-- C7, witness on a four-line report with untracked, modified, deleted and
fully-staged lines: three records, in input order, excluding the
fully-staged path. -/
theorem parse_order_and_count_witness :
    (∃ rss,
      (pySplit '\n' ("?? u.py\n M m.py\n D d.py\nA  s.py").data).mapM
          lineRecords = some rss ∧
      ([{ status := .UNTRACKED, filepath := "u.py", original_filepath := none },
        { status := .MODIFIED, filepath := "m.py", original_filepath := none },
        { status := .DELETED, filepath := "d.py", original_filepath := none }] :
          List GitStatusEntry) = rss.flatten) ∧
    lineRecords [] = some [] ∧
    ([{ status := .UNTRACKED, filepath := "u.py", original_filepath := none },
      { status := .MODIFIED, filepath := "m.py", original_filepath := none },
      { status := .DELETED, filepath := "d.py", original_filepath := none }] :
        List GitStatusEntry).length =
      (pySplit '\n' ("?? u.py\n M m.py\n D d.py\nA  s.py").data).countP
        (fun l => ((lineRecords l).getD []).length == 1) :=
  parse_order_and_count "?? u.py\n M m.py\n D d.py\nA  s.py" _ (by decide)

/-- C8.  The change-set policy: with both detected sets empty the decision
is `proceed`; with a non-empty set and `abort_on_changed_files = true` the
decision is `abort` and the diagnostic output of the evaluation contains
every untracked and every modified path; with a non-empty set and the flag
false the decision is `proceed`. -/
theorem evaluate_change_policy :
    (∀ (vendor_dir : String) (abort_flag : Bool),
      (check_for_uncommitted_changes vendor_dir [] [] abort_flag).decision =
        .proceed) ∧
    (∀ (vendor_dir : String) (untracked modified : List String),
      (untracked ≠ [] ∨ modified ≠ []) →
      (check_for_uncommitted_changes vendor_dir untracked modified true).decision =
          .abort (abort_reason vendor_dir) ∧
        ∀ p ∈ untracked ++ modified,
          ∃ w ∈ (check_for_uncommitted_changes vendor_dir untracked modified
              true).diagnostic, p.data <:+: w.data) ∧
    (∀ (vendor_dir : String) (untracked modified : List String),
      (untracked ≠ [] ∨ modified ≠ []) →
      (check_for_uncommitted_changes vendor_dir untracked modified false).decision =
        .proceed) := by
  refine ⟨?_, ?_, ?_⟩
  · intro v b
    simp [check_for_uncommitted_changes]
  · intro v u m hne
    constructor
    · simp [check_for_uncommitted_changes, hne]
    · intro p hp
      rcases List.mem_append.mp hp with hpu | hpm
      · have hu : u ≠ [] := List.ne_nil_of_mem hpu
        refine ⟨"Untracked files:\n  - " ++ pyJoin "\n  - " u, ?_, ?_⟩
        · simp [check_for_uncommitted_changes, CheckResult.diagnostic, hne, hu]
        · rw [String.data_append_eq]
          exact substring_extend_left _ (mem_pyJoin_substring _ _ _ hpu)
      · have hm : m ≠ [] := List.ne_nil_of_mem hpm
        refine ⟨"Modified files:\n  - " ++ pyJoin "\n  - " m, ?_, ?_⟩
        · simp [check_for_uncommitted_changes, CheckResult.diagnostic, hne, hm]
        · rw [String.data_append_eq]
          exact substring_extend_left _ (mem_pyJoin_substring _ _ _ hpm)
  · intro v u m hne
    simp [check_for_uncommitted_changes, hne]

/-- C8, witness: one untracked file in the vendor directory. -/
theorem evaluate_change_policy_witness :
    (check_for_uncommitted_changes "src/_vendor" [] [] true).decision =
        Decision.proceed ∧
    ((check_for_uncommitted_changes "src/_vendor" ["src/_vendor/extra.py"] []
          true).decision = .abort (abort_reason "src/_vendor") ∧
      ∀ p ∈ ["src/_vendor/extra.py"] ++ ([] : List String),
        ∃ w ∈ (check_for_uncommitted_changes "src/_vendor"
            ["src/_vendor/extra.py"] [] true).diagnostic, p.data <:+: w.data) ∧
    (check_for_uncommitted_changes "src/_vendor" ["src/_vendor/extra.py"] []
        false).decision = Decision.proceed :=
  ⟨evaluate_change_policy.1 "src/_vendor" true,
    evaluate_change_policy.2.1 "src/_vendor" ["src/_vendor/extra.py"] []
      (Or.inl (by decide)),
    evaluate_change_policy.2.2 "src/_vendor" ["src/_vendor/extra.py"] []
      (Or.inl (by decide))⟩

/-- C9.  When the git invocation exits non-zero, the querier fails with a
`RuntimeError` carrying the tool's stderr, and the failure is never an
`ok` result (in particular never an empty change list). -/
theorem query_failure_propagates (returncode : Int) (stdout stderr : String)
    (h : returncode ≠ 0) :
    get_modified_and_untracked_files returncode stdout stderr =
      .gitError ("Git command failed: " ++ stderr) ∧
    ∀ entries, get_modified_and_untracked_files returncode stdout stderr ≠
      .ok entries := by
  unfold get_modified_and_untracked_files
  rw [if_pos h]
  exact ⟨rfl, fun entries hcontra => by cases hcontra⟩

/-- C9, witness at exit code 1 with the stderr of the repository's own
failure test. -/
theorem query_failure_propagates_witness :
    get_modified_and_untracked_files 1 "" "Not a git repository" =
      .gitError ("Git command failed: " ++ "Not a git repository") ∧
    ∀ entries, get_modified_and_untracked_files 1 "" "Not a git repository" ≠
      .ok entries :=
  query_failure_propagates 1 "" "Not a git repository" (by decide)

/-- C10, counterexample.  After the arrow split, the path still goes
through `_unquote_filepath`, so the emitted path is the first shell token
of the post-arrow portion, not the portion itself: the untracked line
`"?? a -> b c"` yields path `"b"`, not the post-arrow portion `"b c"`. -/
theorem arrow_split_path_first_token :
    parse_git_status_porcelain "?? a -> b c" =
      some [{ status := .UNTRACKED, filepath := "b",
              original_filepath := none }] ∧
    ("b" : String) ≠ "b c" := by
  refine ⟨by decide, by decide⟩

/-- C10, amended.  The rename-arrow split is applied before classification,
for every status-code pair: whenever the path segment splits at the first
`" -> "` occurrence, any emitted record's path is the unquoted value (first
shell token) of the post-arrow portion, and for `UNTRACKED` and `DELETED`
records the pre-arrow portion is discarded (`original_filepath` stays
absent). -/
theorem arrow_split_before_classification (c0 c1 gap : Char)
    (seg pre post : List Char)
    (hsplit : splitOnce arrowSep seg = some (pre, post)) (e : GitStatusEntry)
    (h : processLine (c0 :: c1 :: gap :: seg) = some (some e)) :
    unquote_filepath (String.mk post) = some e.filepath ∧
    ((e.status = .UNTRACKED ∨ e.status = .DELETED) →
      e.original_filepath = none) := by
  have spec := processLine_spec c0 c1 (gap :: seg) e h
  have hdrop : (gap :: seg).drop 1 = seg := rfl
  rw [hdrop] at spec
  exact ⟨spec.2.2.2.1 pre post hsplit, spec.2.1⟩

/-- C10, witness for the amended theorem, at the untracked line
`"?? old.txt -> new.txt"`. -/
theorem arrow_split_before_classification_witness :
    unquote_filepath (String.mk ("new.txt".data)) =
      some (({ status := .UNTRACKED, filepath := "new.txt",
               original_filepath := none } : GitStatusEntry).filepath) ∧
    ((({ status := .UNTRACKED, filepath := "new.txt",
         original_filepath := none } : GitStatusEntry).status = .UNTRACKED ∨
      ({ status := .UNTRACKED, filepath := "new.txt",
         original_filepath := none } : GitStatusEntry).status = .DELETED) →
      ({ status := .UNTRACKED, filepath := "new.txt",
         original_filepath := none } : GitStatusEntry).original_filepath = none) :=
  arrow_split_before_classification '?' '?' ' ' ("old.txt -> new.txt".data)
    ("old.txt".data) ("new.txt".data) (by decide)
    { status := .UNTRACKED, filepath := "new.txt", original_filepath := none }
    (by decide)
